import Mathlib

/-
Verification of the orc node protocol handlers: a shallow embedding of the
shard server (upload, download, token authorization), the RPC rule handlers
(offer, audit, consign, retrieve, renew, claim) and the client-side node
calls (offerShardAllocation, requestContractRenewal,
publishCapacityAnnouncement), together with theorems settling the frozen
claims about them.

Conventions of the embedding:
- JS Map objects become association lists with cons-shadowing writes and a
  filtering delete.
- Machine integers (byte counts, unix-millisecond times) become Nat, and the
  JS number data.available becomes Int since only its sign matters.
- Callback-style fallible calls become Except or Option values.
- The crypto digests (RIPEMD160 of SHA256), the signature computation and the
  proof-stream computation are external primitives, embedded as function
  parameters of the handlers that call them.
- The Contract class (contract.js) is not part of the provided sources; its
  diff and isComplete operations are modelled from the spec where required
  and its isValid predicate stays an abstract parameter.
-/

namespace Orc

/-- A contact tuple: identity hex string and the xpub of its address info. -/
structure Contact where
  identity : String
  xpub : String
  deriving DecidableEq

/-- One entry of the token table of the shard server: the shard hash the
token was accepted for, the contact that negotiated it, and the absolute
expiry time in milliseconds. -/
structure TokenEntry where
  hash : String
  contact : Contact
  expires : Nat
  deriving DecidableEq

/-- The token table of the shard server: a map from token strings to
entries, embedded as an association list. -/
abbrev TokenTable := List (String × TokenEntry)

/-- Lookup of a token in the table. -/
def lookupToken (tbl : TokenTable) (t : String) : Option TokenEntry :=
  tbl.lookup t

/-- Server.accept: record a token bound to a file hash and contact, expiring
at now plus the ttl of the server. -/
def Server.accept (tbl : TokenTable) (token filehash : String)
    (contact : Contact) (now ttl : Nat) : TokenTable :=
  (token, ⟨filehash, contact, now + ttl⟩) :: tbl

/-- Server.reject: remove a token from the table. -/
def Server.reject (tbl : TokenTable) (token : String) : TokenTable :=
  tbl.filter (fun p => p.1 != token)

/-- Server.authorize: validate the supplied token against the table. Follows
the assertion order of the source: token supplied, token accepted, hash
supplied, token unexpired, token bound to the requested hash. -/
def Server.authorize (tbl : TokenTable) (token : Option String)
    (hash : String) (now : Nat) : Except String TokenEntry :=
  match token with
  | none => .error "You did not supply a token"
  | some t =>
    if t = "" then .error "You did not supply a token"
    else
      match lookupToken tbl t with
      | none => .error "The token is not accepted"
      | some entry =>
        if hash = "" then .error "You did not supply the data hash"
        else if !(decide (now < entry.expires)) then .error "Token expired"
        else if !(decide (entry.hash = hash)) then .error "Token not valid"
        else .ok entry

/-- The companion contract record the shard server looks up by shard hash;
only its declared shard size matters to the upload path. -/
structure ShardContract where
  shardSize : Nat
  deriving DecidableEq

/-- The chunk loop of Server.upload: each data event adds the chunk length
to the received counter and writes the chunk; if the counter ever exceeds
the declared shard size the transfer aborts. Returns whether the size was
exceeded together with the number of bytes written to the stream. -/
def writeChunks (shardSize : Nat) : List (List Nat) → Nat → Bool × Nat
  | [], received => (false, received)
  | c :: cs, received =>
    let r := received + c.length
    if shardSize < r then (true, r) else writeChunks shardSize cs r

/-- Outcome of one HTTP upload request: the final status code, whether
shards.unlink was called on the partial shard, how many bytes were written
to the shard write stream, and the token table after the request. -/
structure UploadOutcome where
  status : Nat
  unlinked : Bool
  bytesWritten : Nat
  table : TokenTable
  deriving DecidableEq

/-- Server.upload: the upload waterfall. H is the streamed digest primitive,
RIPEMD160 of SHA256 over the concatenation of the received chunks, rendered
as a lowercase hex string. db is the contract database lookup by shard hash
and writeOk tells whether the shard write stream opens. Authorization
failure gives 401 with nothing written; a missing contract gives 404; a
failing write stream gives 500; exceeding the declared size or a digest
mismatch unlinks the partial shard and gives 400; success revokes the token
and gives 200. -/
def Server.upload (H : List Nat → String) (db : String → Option ShardContract)
    (writeOk : Bool) (tbl : TokenTable) (token : Option String)
    (paramsHash : String) (chunks : List (List Nat)) (now : Nat) :
    UploadOutcome :=
  match Server.authorize tbl token paramsHash now, token with
  | .error _, _ => ⟨401, false, 0, tbl⟩
  | .ok _, none => ⟨401, false, 0, tbl⟩
  | .ok entry, some t =>
    match db entry.hash with
    | none => ⟨404, false, 0, tbl⟩
    | some contract =>
      if !writeOk then ⟨500, false, 0, tbl⟩
      else
        match writeChunks contract.shardSize chunks 0 with
        | (true, written) => ⟨400, true, written, tbl⟩
        | (false, written) =>
          if !(decide (H chunks.flatten = entry.hash)) then
            ⟨400, true, written, tbl⟩
          else ⟨200, false, written, Server.reject tbl t⟩

/-- Outcome of one HTTP download request: status code and the token table
after the request. -/
structure DownloadOutcome where
  status : Nat
  table : TokenTable
  deriving DecidableEq

/-- Server.download: the download waterfall. readOk tells whether the shard
read stream opens; streamEnds tells whether the piped stream reaches its end
event (as opposed to erroring mid-stream, which terminates the response
without revoking the token). On a completed transfer the token is revoked. -/
def Server.download (readOk streamEnds : Bool) (tbl : TokenTable)
    (token : Option String) (paramsHash : String) (now : Nat) :
    DownloadOutcome :=
  match Server.authorize tbl token paramsHash now, token with
  | .error _, _ => ⟨401, tbl⟩
  | .ok _, none => ⟨401, tbl⟩
  | .ok _, some t =>
    if !readOk then ⟨404, tbl⟩
    else if streamEnds then ⟨200, Server.reject tbl t⟩
    else ⟨200, tbl⟩

/-- A storage contract descriptor with the field catalog of the spec. -/
structure Contract where
  data_hash : String
  data_size : Nat
  renter_id : String
  farmer_id : String
  renter_hd_key : String
  farmer_hd_key : String
  renter_hd_index : Nat
  farmer_hd_index : Nat
  renter_signature : String
  farmer_signature : String
  store_begin : Nat
  store_end : Nat
  audit_leaves : List String
  payment_destination : String
  version : Nat
  deriving DecidableEq

/-- The contract store of the node: keys are hash colon xpub strings. -/
abbrev ContractStore := List (String × Contract)

/-- Lookup in the contract store. -/
def lookupContract (s : ContractStore) (k : String) : Option Contract :=
  s.lookup k

/-- Write to the contract store, shadowing any previous value of the key. -/
def putContract (s : ContractStore) (k : String) (c : Contract) :
    ContractStore :=
  (k, c) :: s

/-- The field catalog of a contract descriptor, in the order of the data
model table of the spec. -/
def contractFields : List String :=
  ["data_hash", "data_size", "renter_id", "farmer_id", "renter_hd_key",
   "farmer_hd_key", "renter_hd_index", "farmer_hd_index", "renter_signature",
   "farmer_signature", "store_begin", "store_end", "audit_leaves",
   "payment_destination", "version"]

/-- Whether a named field differs between two contracts. -/
def fieldDiffers (a b : Contract) : String → Bool
  | "data_hash" => decide (a.data_hash ≠ b.data_hash)
  | "data_size" => decide (a.data_size ≠ b.data_size)
  | "renter_id" => decide (a.renter_id ≠ b.renter_id)
  | "farmer_id" => decide (a.farmer_id ≠ b.farmer_id)
  | "renter_hd_key" => decide (a.renter_hd_key ≠ b.renter_hd_key)
  | "farmer_hd_key" => decide (a.farmer_hd_key ≠ b.farmer_hd_key)
  | "renter_hd_index" => decide (a.renter_hd_index ≠ b.renter_hd_index)
  | "farmer_hd_index" => decide (a.farmer_hd_index ≠ b.farmer_hd_index)
  | "renter_signature" => decide (a.renter_signature ≠ b.renter_signature)
  | "farmer_signature" => decide (a.farmer_signature ≠ b.farmer_signature)
  | "store_begin" => decide (a.store_begin ≠ b.store_begin)
  | "store_end" => decide (a.store_end ≠ b.store_end)
  | "audit_leaves" => decide (a.audit_leaves ≠ b.audit_leaves)
  | "payment_destination" =>
      decide (a.payment_destination ≠ b.payment_destination)
  | "version" => decide (a.version ≠ b.version)
  | _ => false

/-- Modelled from the spec: the Contract module is not among the provided
sources; per the spec, diff of two contracts is the set of field names whose
values differ, taken here over the fixed field catalog in catalog order. -/
def Contract.diff (a b : Contract) : List String :=
  contractFields.filter (fieldDiffers a b)

/-- Modelled from the spec: the Contract module is not among the provided
sources; per the spec, isComplete holds iff both signature fields are
present. -/
def Contract.isComplete (c : Contract) : Bool :=
  decide (c.renter_signature ≠ "") && decide (c.farmer_signature ≠ "")

/-- Reply of the audit handler for one hash and challenge pair. -/
structure AuditReply (π : Type) where
  hash : String
  proof : Option π
  deriving DecidableEq

/-- One hash and challenge pair of an AUDIT batch. -/
structure AuditItem where
  hash : String
  challenge : String
  deriving DecidableEq

/-- The params of an RPC request: either an array of items or something
that is not an array. -/
inductive RpcParams (α : Type)
  | arr (items : List α)
  | malformed
  deriving DecidableEq

/-- Rules.audit: for each hash and challenge pair, look up the contract
under hash colon xpub; when it is missing, when the shard read stream fails
to open, or when the proof stream errors, the item gets a null proof, and
otherwise it gets the computed proof result. Non-array params give the only
RPC error of the handler. runProof embeds the external proof stream fed with
the audit leaves, the challenge and the shard bytes of the hash, returning
none when it errors. -/
def Rules.audit {π : Type} (contracts : ContractStore) (xpub : String)
    (shardRead : String → Bool)
    (runProof : List String → String → String → Option π)
    (params : RpcParams AuditItem) : Except String (List (AuditReply π)) :=
  match params with
  | .malformed => .error "Invalid audit batch supplied"
  | .arr audits =>
    .ok (audits.map (fun a =>
      match lookupContract contracts (a.hash ++ ":" ++ xpub) with
      | none => ⟨a.hash, none⟩
      | some desc =>
        if shardRead a.hash then
          ⟨a.hash, runProof desc.audit_leaves a.challenge a.hash⟩
        else ⟨a.hash, none⟩))

/-- Outcome of the consign handler. -/
inductive ConsignOutcome
  | storeMiss
  | error (msg : String)
  | reply (token : String)
  deriving DecidableEq

/-- Rules.consign: look up the contract under hash colon xpub of the
contact; a store miss propagates the store error; an expired contract is
rejected; otherwise the freshly minted token is accepted and replied. -/
def Rules.consign (contracts : ContractStore) (tbl : TokenTable)
    (now ttl : Nat) (hash : String) (contact : Contact) (token : String) :
    ConsignOutcome × TokenTable :=
  match lookupContract contracts (hash ++ ":" ++ contact.xpub) with
  | none => (.storeMiss, tbl)
  | some desc =>
    if decide (desc.store_end < now) then (.error "Contract has expired", tbl)
    else (.reply token, Server.accept tbl token hash contact now ttl)

/-- Outcome of the retrieve handler. -/
inductive RetrieveOutcome
  | storeMiss
  | shardsError
  | error (msg : String)
  | reply (token : String)
  deriving DecidableEq

/-- Rules.retrieve: look up the contract under hash colon xpub of the
contact, then check shard existence; an erroring existence check propagates
that error, a missing shard is rejected with the literal message, and
otherwise the freshly minted token is accepted and replied. -/
def Rules.retrieve (contracts : ContractStore)
    (shardExistsAt : String → Except Unit Bool) (tbl : TokenTable)
    (now ttl : Nat) (hash : String) (contact : Contact) (token : String) :
    RetrieveOutcome × TokenTable :=
  match lookupContract contracts (hash ++ ":" ++ contact.xpub) with
  | none => (.storeMiss, tbl)
  | some _ =>
    match shardExistsAt hash with
    | .error _ => (.shardsError, tbl)
    | .ok false => (.error "Shard not found", tbl)
    | .ok true => (.reply token, Server.accept tbl token hash contact now ttl)

/-- Outcome of the renew handler. -/
inductive RenewOutcome
  | storeMiss
  | error (msg : String)
  | reply (c : Contract)
  deriving DecidableEq

/-- The renewal fields a farmer accepts changes to. -/
def allowedRenewal : List String :=
  ["renter_id", "renter_hd_key", "renter_signature", "store_begin",
   "store_end", "audit_leaves"]

/-- Rules.renew: validate the renewal, load the local contract under the
hash of the renewal colon xpub of the contact, reject on the first differing
field outside the allowed set, and otherwise sign as farmer, persist and
reply. isValid and isComplete stay parameters of the missing Contract
module; signing as farmer writes the supplied signature into the farmer
signature field, modelled from the spec. -/
def Rules.renew (isValid isComplete : Contract → Bool) (sig : String)
    (contracts : ContractStore) (xpub : String) (renewal : Contract) :
    RenewOutcome × ContractStore :=
  let key := renewal.data_hash ++ ":" ++ xpub
  if !(isValid renewal && isComplete renewal) then
    (.error "Descriptor is invalid or incomplete", contracts)
  else
    match lookupContract contracts key with
    | none => (.storeMiss, contracts)
    | some original =>
      match (Contract.diff original renewal).find?
          (fun p => !(allowedRenewal.contains p)) with
      | some prop => (.error ("Rejecting renewal of " ++ prop), contracts)
      | none =>
        let signed := { renewal with farmer_signature := sig }
        (.reply signed, putContract contracts key signed)

/-- Outcome of the claim handler. -/
inductive ClaimOutcome
  | error (msg : String)
  | reply (c : Contract) (token : String)
  deriving DecidableEq

/-- Rules.claim: reject unless the renter extended key is allow-listed or
the allow-list holds the star wildcard; otherwise fill the farmer side
fields, sign as farmer, validate, persist under hash colon renter key, and
accept a freshly minted token. -/
def Rules.claim (claims : List String) (isValid isComplete : Contract → Bool)
    (sig nodeIdentity nodeXpub : String) (nodeIndex : Nat)
    (contracts : ContractStore) (tbl : TokenTable) (now ttl : Nat)
    (descriptor : Contract) (contact : Contact) (token : String) :
    ClaimOutcome × ContractStore × TokenTable :=
  let xpub := descriptor.renter_hd_key
  let hash := descriptor.data_hash
  if !(claims.contains xpub) && !(claims.contains "*") then
    (.error "Currently rejecting claims", contracts, tbl)
  else
    let signed := { descriptor with
      payment_destination := "?"
      farmer_id := nodeIdentity
      farmer_hd_key := nodeXpub
      farmer_hd_index := nodeIndex
      farmer_signature := sig }
    if !(isValid signed && isComplete signed) then
      (.error "Invalid shard descriptor", contracts, tbl)
    else
      (.reply signed token,
       putContract contracts (hash ++ ":" ++ xpub) signed,
       Server.accept tbl token hash contact now ttl)

/-- Outcome of the offer handler; the reply type is the resolved value the
offer stream produces for the queued offer. -/
inductive OfferOutcome (ρ : Type)
  | error (msg : String)
  | queueError
  | reply (r : ρ)
  deriving DecidableEq

/-- Rules.offer: validate the descriptor first, then require an active
offer stream registered under its data hash, and only then queue the offer;
queueResult embeds the callback of the queue call. -/
def Rules.offer {ρ : Type} (isValid isComplete : Contract → Bool)
    (offers : List String) (queueResult : Except Unit ρ)
    (descriptor : Contract) : OfferOutcome ρ :=
  if !(isValid descriptor && isComplete descriptor) then
    .error "Invalid shard descriptor"
  else if !(offers.contains descriptor.data_hash) then
    .error "Offers for descriptor are closed"
  else
    match queueResult with
    | .error _ => .queueError
    | .ok r => .reply r

/-- A value persisted in the contract store by the client calls: either a
single contract descriptor or, by the slip in requestContractRenewal, a
whole RPC reply array. -/
inductive StoredValue
  | obj (c : Contract)
  | arr (cs : List Contract)
  deriving DecidableEq

/-- The contract store as the client calls see it, with untyped values. -/
abbrev NodeStore := List (String × StoredValue)

/-- Node.offerShardAllocation reply handling: parse the first element of the
reply, require it valid and complete, and persist that first element under
hash colon xpub of the peer. -/
def Node.offerShardAllocation (isValid isComplete : Contract → Bool)
    (contracts : NodeStore) (peerXpub : String) (result : List Contract) :
    Except String (Contract × NodeStore) :=
  match result.head? with
  | none => .error "Peer replied with invalid or incomplete contract"
  | some c =>
    if !(isValid c && isComplete c) then
      .error "Peer replied with invalid or incomplete contract"
    else
      .ok (c, (c.data_hash ++ ":" ++ peerXpub, .obj c) :: contracts)

/-- Node.requestContractRenewal reply handling: parse the first element of
the reply, require it valid and complete, and persist the value the source
passes to the store put, which is the whole reply array. -/
def Node.requestContractRenewal (isValid isComplete : Contract → Bool)
    (contracts : NodeStore) (peerXpub : String) (result : List Contract) :
    Except String (Contract × NodeStore) :=
  match result.head? with
  | none => .error "Peer replied with invalid or incomplete contract"
  | some c =>
    if !(isValid c && isComplete c) then
      .error "Peer replied with invalid or incomplete contract"
    else
      .ok (c, (c.data_hash ++ ":" ++ peerXpub, .arr result) :: contracts)

/-- Node.publishCapacityAnnouncement effect on the claims allow-list: it is
emptied unless the announced available capacity is positive. -/
def Node.publishCapacityAnnouncement (claims : List String)
    (available : Int) : List String :=
  if 0 < available then claims else []

/-- A sample contact for concrete evaluations. -/
def sampleContact : Contact := ⟨"id", "X"⟩

/-- A sample token table holding one live token for hash ha. -/
def sampleTable : TokenTable := [("tok", ⟨"ha", sampleContact, 100⟩)]

/-- A digest primitive that is constantly the hash ha. -/
def constHash : List Nat → String := fun _ => "ha"

/-- A sample contract database declaring shard size ten for hash ha. -/
def sampleDb : String → Option ShardContract :=
  fun h => if h = "ha" then some ⟨10⟩ else none

/-- A sample complete contract for hash ha and renter key X. -/
def sampleContract : Contract :=
  ⟨"ha", 10, "rid", "fid", "X", "fkey", 1, 1, "rsig", "fsig",
   0, 1000, ["leaf0", "leaf1"], "addr", 2⟩

/-- A sample contract store holding the sample contract under its key. -/
def sampleContracts : ContractStore := [("ha:X", sampleContract)]

/-- A constantly true validity predicate standing in for an external
verifier that accepts. -/
def allTrue : Contract → Bool := fun _ => true

/-- A renewal descriptor differing from the sample contract only in the
farmer extended key, a field outside the allowed renewal set. -/
def renewalBadField : Contract := { sampleContract with farmer_hd_key := "evil" }

/-- A renewal descriptor differing from the sample contract only in the
store end time, a field inside the allowed renewal set. -/
def renewalGoodField : Contract := { sampleContract with store_end := 2000 }

/-- A descriptor with both signatures missing, hence incomplete. -/
def incompleteDescriptor : Contract :=
  { sampleContract with renter_signature := "", farmer_signature := "" }

/-- C5: for a CONSIGN request whose contract exists under the key of the
hash and the contact, the handler fails with the error message about
expiry iff now is past store_end of the contract; on that failure the token
table is unchanged, and on success the reply carries the freshly minted
token, which is accepted for the hash and the contact. -/
theorem consign_expired_iff (contracts : ContractStore) (tbl : TokenTable)
    (now ttl : Nat) (hash : String) (contact : Contact) (token : String)
    (desc : Contract)
    (hget : lookupContract contracts (hash ++ ":" ++ contact.xpub) = some desc) :
    ((Rules.consign contracts tbl now ttl hash contact token).1 =
        .error "Contract has expired" ↔ desc.store_end < now)
    ∧ (desc.store_end < now →
        (Rules.consign contracts tbl now ttl hash contact token).2 = tbl)
    ∧ (¬ desc.store_end < now →
        Rules.consign contracts tbl now ttl hash contact token =
          (.reply token, Server.accept tbl token hash contact now ttl)
        ∧ lookupToken (Server.accept tbl token hash contact now ttl) token =
            some ⟨hash, contact, now + ttl⟩) := by
  unfold Rules.consign
  rw [hget]
  by_cases h : desc.store_end < now
  · simp [h]
  · simp [h, Server.accept, lookupToken, List.lookup]

/-- Witness for C5 at a concrete expired contract: store_end is 1000 and
now is 2000, so the handler rejects with the expiry error. -/
theorem consign_expired_iff_witness :
    (Rules.consign sampleContracts sampleTable 2000 100 "ha" sampleContact
        "tok2").1 = .error "Contract has expired" :=
  (consign_expired_iff sampleContracts sampleTable 2000 100 "ha" sampleContact
      "tok2" sampleContract (by decide)).1.mpr (by decide)

/-- C6: a RETRIEVE request fails with the message that the shard is missing
iff the contract under the key of the hash and the contact exists and the
shard existence check returns false; when the contract exists and the shard
exists the reply carries the freshly minted token, which is accepted for the
hash and the contact. -/
theorem retrieve_not_found_iff (contracts : ContractStore)
    (shardExistsAt : String → Except Unit Bool) (tbl : TokenTable)
    (now ttl : Nat) (hash : String) (contact : Contact) (token : String) :
    ((Rules.retrieve contracts shardExistsAt tbl now ttl hash contact
        token).1 = .error "Shard not found" ↔
      (∃ d, lookupContract contracts (hash ++ ":" ++ contact.xpub) = some d)
        ∧ shardExistsAt hash = .ok false)
    ∧ (∀ d, lookupContract contracts (hash ++ ":" ++ contact.xpub) = some d →
        shardExistsAt hash = .ok true →
        Rules.retrieve contracts shardExistsAt tbl now ttl hash contact token =
          (.reply token, Server.accept tbl token hash contact now ttl)
        ∧ lookupToken (Server.accept tbl token hash contact now ttl) token =
            some ⟨hash, contact, now + ttl⟩) := by
  constructor
  · cases hc : lookupContract contracts (hash ++ ":" ++ contact.xpub) with
    | none => simp [Rules.retrieve, hc]
    | some d =>
      cases he : shardExistsAt hash with
      | error e => simp [Rules.retrieve, hc, he]
      | ok b => cases b <;> simp [Rules.retrieve, hc, he]
  · intro d hd ht
    simp [Rules.retrieve, hd, ht, Server.accept, lookupToken, List.lookup]

/-- Witness for C6 at a concrete input: the contract exists but the shard
store reports the shard absent, so the handler rejects with the missing
shard error. -/
theorem retrieve_not_found_iff_witness :
    (Rules.retrieve sampleContracts (fun _ => .ok false) sampleTable 0 100
        "ha" sampleContact "tok2").1 = .error "Shard not found" :=
  (retrieve_not_found_iff sampleContracts (fun _ => .ok false) sampleTable 0
      100 "ha" sampleContact "tok2").1.mpr ⟨⟨sampleContract, by decide⟩, rfl⟩

/-- C7: a CLAIM request is rejected with the claims rejection error, with
nothing persisted and no token accepted, iff the renter extended key of the
descriptor is not in the allow-list and the allow-list does not hold the
star wildcard. -/
theorem claim_allowlist_iff (claims : List String)
    (isValid isComplete : Contract → Bool)
    (sig nodeIdentity nodeXpub : String) (nodeIndex : Nat)
    (contracts : ContractStore) (tbl : TokenTable) (now ttl : Nat)
    (descriptor : Contract) (contact : Contact) (token : String) :
    ((Rules.claim claims isValid isComplete sig nodeIdentity nodeXpub
        nodeIndex contracts tbl now ttl descriptor contact token).1 =
        .error "Currently rejecting claims" ↔
      ¬(descriptor.renter_hd_key ∈ claims ∨ "*" ∈ claims))
    ∧ (¬(descriptor.renter_hd_key ∈ claims ∨ "*" ∈ claims) →
        Rules.claim claims isValid isComplete sig nodeIdentity nodeXpub
          nodeIndex contracts tbl now ttl descriptor contact token =
          (.error "Currently rejecting claims", contracts, tbl)) := by
  by_cases hmem : descriptor.renter_hd_key ∈ claims ∨ "*" ∈ claims
  · have hcond :
        (!(claims.contains descriptor.renter_hd_key)
          && !(claims.contains "*")) = false := by
      rcases hmem with hm | hm <;> simp [hm]
    have h1 : (Rules.claim claims isValid isComplete sig nodeIdentity nodeXpub
        nodeIndex contracts tbl now ttl descriptor contact token).1 ≠
        .error "Currently rejecting claims" := by
      simp only [Rules.claim, hcond, Bool.false_eq_true, if_false]
      split
      · simp
      · simp
    exact ⟨iff_of_false h1 (not_not_intro hmem), fun hn => absurd hmem hn⟩
  · have hx : claims.contains descriptor.renter_hd_key = false := by
      cases hh : claims.contains descriptor.renter_hd_key
      · rfl
      · exact absurd (Or.inl (by simpa using hh)) hmem
    have hs : claims.contains "*" = false := by
      cases hh : claims.contains "*"
      · rfl
      · exact absurd (Or.inr (by simpa using hh)) hmem
    have hres : Rules.claim claims isValid isComplete sig nodeIdentity nodeXpub
        nodeIndex contracts tbl now ttl descriptor contact token =
        (.error "Currently rejecting claims", contracts, tbl) := by
      simp only [Rules.claim, hx, hs, Bool.not_false, Bool.and_self, if_true]
    exact ⟨iff_of_true (by rw [hres]) hmem, fun _ => hres⟩

/-- Witness for C7: with an empty allow-list a valid descriptor is rejected
with the claims rejection error and nothing is persisted. -/
theorem claim_allowlist_iff_witness :
    Rules.claim [] allTrue Contract.isComplete "s" "nid" "nx" 1
      sampleContracts sampleTable 0 100 sampleContract sampleContact "tok2" =
      (.error "Currently rejecting claims", sampleContracts, sampleTable) :=
  (claim_allowlist_iff [] allTrue Contract.isComplete "s" "nid" "nx" 1
      sampleContracts sampleTable 0 100 sampleContract sampleContact
      "tok2").2 (by simp)

/-- C10: announcing a non-positive available capacity replaces the claims
allow-list with the empty list, after which every CLAIM request is rejected
with the claims rejection error; announcing a positive capacity leaves the
allow-list unchanged. -/
theorem capacity_nonpositive_empties_claims (claims : List String)
    (available : Int) :
    (available ≤ 0 →
      Node.publishCapacityAnnouncement claims available = []
      ∧ ∀ (isValid isComplete : Contract → Bool)
          (sig nodeIdentity nodeXpub : String) (nodeIndex : Nat)
          (contracts : ContractStore) (tbl : TokenTable) (now ttl : Nat)
          (descriptor : Contract) (contact : Contact) (token : String),
          (Rules.claim (Node.publishCapacityAnnouncement claims available)
            isValid isComplete sig nodeIdentity nodeXpub nodeIndex contracts
            tbl now ttl descriptor contact token).1 =
            .error "Currently rejecting claims")
    ∧ (0 < available →
        Node.publishCapacityAnnouncement claims available = claims) := by
  constructor
  · intro h
    have hpub : Node.publishCapacityAnnouncement claims available = [] := by
      unfold Node.publishCapacityAnnouncement
      rw [if_neg (by omega)]
    refine ⟨hpub, ?_⟩
    intro isValid isComplete sig nodeIdentity nodeXpub nodeIndex contracts
      tbl now ttl descriptor contact token
    rw [hpub]
    have := (claim_allowlist_iff [] isValid isComplete sig nodeIdentity
      nodeXpub nodeIndex contracts tbl now ttl descriptor contact token).2
      (by simp)
    rw [this]
  · intro h
    unfold Node.publishCapacityAnnouncement
    rw [if_pos h]

/-- Witness for C10: announcing zero available capacity empties the
allow-list, and a subsequent CLAIM of the sample descriptor is rejected. -/
theorem capacity_nonpositive_empties_claims_witness :
    Node.publishCapacityAnnouncement ["X"] 0 = []
    ∧ (Rules.claim (Node.publishCapacityAnnouncement ["X"] 0) allTrue
        Contract.isComplete "s" "nid" "nx" 1 sampleContracts sampleTable 0
        100 sampleContract sampleContact "tok2").1 =
        .error "Currently rejecting claims" :=
  And.intro
    ((capacity_nonpositive_empties_claims ["X"] 0).1 (by decide)).1
    (((capacity_nonpositive_empties_claims ["X"] 0).1 (by decide)).2 allTrue
      Contract.isComplete "s" "nid" "nx" 1 sampleContracts sampleTable 0 100
      sampleContract sampleContact "tok2")

/-- C4: evaluation of the renewal client call at a successful reply shows
the value persisted under the contract key is the whole reply array, not
its first element, unlike the matching OFFER client call, which persists
the first element as the claim requires. -/
theorem requestContractRenewal_persists_reply_array :
    Node.requestContractRenewal allTrue allTrue [] "X" [sampleContract] =
      .ok (sampleContract, [("ha:X", .arr [sampleContract])])
    ∧ (∀ c : Contract, StoredValue.arr [sampleContract] ≠ StoredValue.obj c)
    ∧ Node.offerShardAllocation allTrue allTrue [] "X" [sampleContract] =
      .ok (sampleContract, [("ha:X", .obj sampleContract)]) := by
  refine ⟨rfl, ?_, rfl⟩
  intro c h
  exact StoredValue.noConfusion h

/-- Counterexample for C8: a descriptor that is incomplete and whose data
hash has no registered offer stream is rejected with the invalid descriptor
error, not with the closed offers error, so the closed offers message does
not appear whenever no stream is registered. -/
theorem offer_closed_counterexample :
    ([] : List String).contains incompleteDescriptor.data_hash = false
    ∧ Contract.isComplete incompleteDescriptor = false
    ∧ Rules.offer allTrue Contract.isComplete [] (Except.ok (0 : Nat))
        incompleteDescriptor = .error "Invalid shard descriptor"
    ∧ Rules.offer allTrue Contract.isComplete [] (Except.ok (0 : Nat))
        incompleteDescriptor ≠ .error "Offers for descriptor are closed" := by
  refine ⟨rfl, by decide, by decide, by decide⟩

/-- C8 amended: the offer handler rejects with the invalid descriptor error
whenever the descriptor is not both valid and complete; when it is valid
and complete it rejects with the closed offers error whenever no offer
stream is registered under its data hash; and only when both checks pass is
the offer queued, the reply being the resolution of the queue call. -/
theorem offer_spec {ρ : Type} (isValid isComplete : Contract → Bool)
    (offers : List String) (queueResult : Except Unit ρ) (d : Contract) :
    ((isValid d && isComplete d) = false →
      Rules.offer isValid isComplete offers queueResult d =
        .error "Invalid shard descriptor")
    ∧ ((isValid d && isComplete d) = true →
        offers.contains d.data_hash = false →
        Rules.offer isValid isComplete offers queueResult d =
          .error "Offers for descriptor are closed")
    ∧ ((isValid d && isComplete d) = true →
        offers.contains d.data_hash = true →
        Rules.offer isValid isComplete offers queueResult d =
          match queueResult with
          | .ok r => .reply r
          | .error _ => .queueError) := by
  refine ⟨?_, ?_, ?_⟩
  · intro h1
    simp [Rules.offer, h1]
  · intro h1 h2
    simp at h2
    simp [Rules.offer, h1, h2]
  · intro h1 h2
    simp only [Rules.offer, h1, h2, Bool.not_true, Bool.false_eq_true,
      if_false]
    cases queueResult <;> rfl

/-- Witness for C8 amended: the sample descriptor is complete, so with an
empty registry the handler rejects with the closed offers error. -/
theorem offer_spec_witness :
    Rules.offer allTrue Contract.isComplete [] (Except.ok (0 : Nat))
      sampleContract = .error "Offers for descriptor are closed" :=
  (offer_spec allTrue Contract.isComplete [] (Except.ok (0 : Nat))
      sampleContract).2.1 (by decide) (by decide)

/-- A successful find? splits its list into an allowed prefix and the found
element: everything before the first hit fails the predicate. -/
theorem find?_first_decomp {α : Type} (p : α → Bool) :
    ∀ (l : List α) (x : α), l.find? p = some x →
      ∃ l1 l2, l = l1 ++ x :: l2 ∧ ∀ y ∈ l1, p y = false := by
  intro l
  induction l with
  | nil => intro x h; simp [List.find?] at h
  | cons a as ih =>
    intro x h
    cases hp : p a with
    | true =>
      rw [List.find?_cons_of_pos _ hp] at h
      obtain rfl : a = x := Option.some.inj h
      exact ⟨[], as, rfl, fun y hy => absurd hy (List.not_mem_nil y)⟩
    | false =>
      rw [List.find?_cons_of_neg _ (by simp [hp])] at h
      obtain ⟨l1, l2, heq, hall⟩ := ih x h
      refine ⟨a :: l1, l2, by rw [heq]; rfl, ?_⟩
      intro y hy
      rcases List.mem_cons.mp hy with rfl | hy2
      · exact hp
      · exact hall y hy2

/-- C3: with a valid and complete renewal and an existing local contract,
the renew handler rejects with the renewal rejection error iff the diff of
the local contract and the renewal holds a field outside the allowed set;
the named field is the first offending one in diff order, everything before
it in the diff being allowed; and when every differing field is allowed the
handler signs as farmer, persists the signed renewal under the key, and
replies with it. -/
theorem renew_reject_iff (isValid isComplete : Contract → Bool) (sig : String)
    (contracts : ContractStore) (xpub : String) (renewal original : Contract)
    (hv : isValid renewal = true) (hc : isComplete renewal = true)
    (hget : lookupContract contracts (renewal.data_hash ++ ":" ++ xpub) =
      some original) :
    ((∃ X, (Rules.renew isValid isComplete sig contracts xpub renewal).1 =
        .error ("Rejecting renewal of " ++ X)) ↔
      ∃ p ∈ Contract.diff original renewal,
        allowedRenewal.contains p = false)
    ∧ (∀ X, (Contract.diff original renewal).find?
          (fun p => !(allowedRenewal.contains p)) = some X →
        (Rules.renew isValid isComplete sig contracts xpub renewal).1 =
          .error ("Rejecting renewal of " ++ X)
        ∧ ∃ l1 l2, Contract.diff original renewal = l1 ++ X :: l2
            ∧ ∀ q ∈ l1, allowedRenewal.contains q = true)
    ∧ ((∀ p ∈ Contract.diff original renewal,
          allowedRenewal.contains p = true) →
        Rules.renew isValid isComplete sig contracts xpub renewal =
          (.reply { renewal with farmer_signature := sig },
           putContract contracts (renewal.data_hash ++ ":" ++ xpub)
             { renewal with farmer_signature := sig })) := by
  refine ⟨?_, ?_, ?_⟩
  · cases hf : (Contract.diff original renewal).find?
        (fun p => !(allowedRenewal.contains p)) with
    | none =>
      have hres : (Rules.renew isValid isComplete sig contracts xpub
          renewal).1 = .reply { renewal with farmer_signature := sig } := by
        simp only [Rules.renew, hget, hf]
        rw [if_neg (by simp [hv, hc])]
      refine iff_of_false ?_ ?_
      · rintro ⟨X, hX⟩
        rw [hres] at hX
        exact RenewOutcome.noConfusion hX
      · rintro ⟨p, hp, hcont⟩
        have h2 := List.find?_eq_none.mp hf p hp
        simp only [hcont, Bool.not_false] at h2
        exact h2 trivial
    | some X0 =>
      have hres : (Rules.renew isValid isComplete sig contracts xpub
          renewal).1 = .error ("Rejecting renewal of " ++ X0) := by
        simp only [Rules.renew, hget, hf]
        rw [if_neg (by simp [hv, hc])]
      refine iff_of_true ⟨X0, hres⟩ ?_
      refine ⟨X0, List.mem_of_find?_eq_some hf, ?_⟩
      have h2 := List.find?_some hf
      simpa using h2
  · intro X hfind
    have hres : (Rules.renew isValid isComplete sig contracts xpub
        renewal).1 = .error ("Rejecting renewal of " ++ X) := by
      simp only [Rules.renew, hget, hfind]
      rw [if_neg (by simp [hv, hc])]
    refine ⟨hres, ?_⟩
    obtain ⟨l1, l2, heq, hall⟩ := find?_first_decomp _ _ _ hfind
    refine ⟨l1, l2, heq, ?_⟩
    intro q hq
    have h2 := hall q hq
    simpa using h2
  · intro hall
    have hf : (Contract.diff original renewal).find?
        (fun p => !(allowedRenewal.contains p)) = none := by
      rw [List.find?_eq_none]
      intro x hx
      simp only [hall x hx, Bool.not_true]
      exact fun h => Bool.noConfusion h
    simp only [Rules.renew, hget, hf]
    rw [if_neg (by simp [hv, hc])]

/-- Witness for C3: a renewal changing only the farmer extended key, a
field outside the allowed set, is rejected with the renewal rejection
error. -/
theorem renew_reject_iff_witness :
    ∃ X, (Rules.renew allTrue allTrue "sig2" sampleContracts "X"
        renewalBadField).1 = .error ("Rejecting renewal of " ++ X) :=
  (renew_reject_iff allTrue allTrue "sig2" sampleContracts "X"
      renewalBadField sampleContract rfl rfl (by decide)).1.mpr
    ⟨"farmer_hd_key", by decide, by decide⟩

/-- C2: the audit handler never fails on an array batch: it replies ok with
exactly one item per input in input order, keeping the input hash; an item
gets a null proof exactly when its contract is absent, its shard read
stream fails to open, or its proof computation errors, and every other item
gets the computed proof result. -/
theorem audit_total {π : Type} (contracts : ContractStore) (xpub : String)
    (shardRead : String → Bool)
    (runProof : List String → String → String → Option π)
    (items : List AuditItem) :
    ∃ rs : List (AuditReply π),
      Rules.audit contracts xpub shardRead runProof (.arr items) = .ok rs
      ∧ rs.length = items.length
      ∧ ∀ (k : Nat) (hk : k < items.length) (hk2 : k < rs.length),
          ((rs.get ⟨k, hk2⟩).hash = (items.get ⟨k, hk⟩).hash)
          ∧ ((rs.get ⟨k, hk2⟩).proof = none ↔
              (lookupContract contracts
                  ((items.get ⟨k, hk⟩).hash ++ ":" ++ xpub) = none
               ∨ shardRead (items.get ⟨k, hk⟩).hash = false
               ∨ (∃ d, lookupContract contracts
                      ((items.get ⟨k, hk⟩).hash ++ ":" ++ xpub) = some d
                    ∧ runProof d.audit_leaves (items.get ⟨k, hk⟩).challenge
                        (items.get ⟨k, hk⟩).hash = none)))
          ∧ (∀ d, lookupContract contracts
                ((items.get ⟨k, hk⟩).hash ++ ":" ++ xpub) = some d →
              shardRead (items.get ⟨k, hk⟩).hash = true →
              (rs.get ⟨k, hk2⟩).proof =
                runProof d.audit_leaves (items.get ⟨k, hk⟩).challenge
                  (items.get ⟨k, hk⟩).hash) := by
  refine ⟨_, rfl, by simp, ?_⟩
  intro k hk hk2
  simp only [List.get_eq_getElem, List.getElem_map]
  rcases hit : items[k] with ⟨ih, ic⟩
  cases hlc : lookupContract contracts (ih ++ ":" ++ xpub) with
  | none => simp [hlc]
  | some d =>
    cases hsr : shardRead ih with
    | false => simp [hlc, hsr]
    | true =>
      cases hrp : runProof d.audit_leaves ic ih with
      | none => simp [hlc, hsr, hrp]
      | some v => simp [hlc, hsr, hrp]

/-- Witness for C2 at a one-item batch over the sample store: the reply is
ok, has length one, and its single item carries the computed proof. -/
theorem audit_total_witness :
    ∃ rs : List (AuditReply Nat),
      Rules.audit sampleContracts "X" (fun _ => true) (fun _ _ _ => some 7)
        (.arr [⟨"ha", "ch"⟩]) = .ok rs
      ∧ rs.length = 1
      ∧ ∀ h0 : 0 < rs.length, (rs.get ⟨0, h0⟩).proof = some 7 := by
  obtain ⟨rs, h1, h2, h3⟩ := audit_total sampleContracts "X" (fun _ => true)
    (fun _ _ _ => some (7 : Nat)) [⟨"ha", "ch"⟩]
  refine ⟨rs, h1, h2, fun h0 => ?_⟩
  exact (h3 0 (by decide) h0).2.2 sampleContract (by decide) rfl

/-- The chunk loop reports the size exceeded exactly when the total of the
chunk lengths, on top of the bytes already received, passes the declared
shard size. -/
theorem writeChunks_exceeded_iff (s : Nat) :
    ∀ (l : List (List Nat)) (acc : Nat), acc ≤ s →
      ((writeChunks s l acc).1 = true ↔ s < acc + (l.map List.length).sum) := by
  intro l
  induction l with
  | nil =>
    intro acc hacc
    simp [writeChunks]
    omega
  | cons chunk rest ih =>
    intro acc hacc
    simp only [writeChunks, List.map_cons, List.sum_cons]
    by_cases h : s < acc + chunk.length
    · rw [if_pos h]
      simp only [true_iff]
      omega
    · rw [if_neg h]
      rw [ih (acc + chunk.length) (by omega)]
      omega

/-- A successful authorization means the entry is bound to the requested
hash, is unexpired, and is the table entry of the supplied token. -/
theorem authorize_ok_facts (tbl : TokenTable) (token : Option String)
    (hash : String) (now : Nat) (e : TokenEntry)
    (h : Server.authorize tbl token hash now = .ok e) :
    e.hash = hash ∧ now < e.expires
      ∧ ∃ t, token = some t ∧ lookupToken tbl t = some e := by
  cases token with
  | none => simp [Server.authorize] at h
  | some t =>
    by_cases h0 : t = ""
    · simp [Server.authorize, h0] at h
    · cases hl : lookupToken tbl t with
      | none => simp [Server.authorize, h0, hl] at h
      | some entry =>
        by_cases hh : hash = ""
        · simp [Server.authorize, h0, hl, hh] at h
        · by_cases he : now < entry.expires
          · by_cases hq : entry.hash = hash
            · have hent : entry = e := by
                simpa [Server.authorize, h0, hl, hh, he, hq] using h
              subst hent
              exact ⟨hq, he, t, rfl, hl⟩
            · simp [Server.authorize, h0, hl, hh, he, hq] at h
          · simp [Server.authorize, h0, hl, hh, he] at h

/-- A failing authorization makes the upload respond 401 with nothing
written, nothing unlinked and the token table untouched. -/
theorem upload_of_authorize_error (H : List Nat → String)
    (db : String → Option ShardContract) (writeOk : Bool) (tbl : TokenTable)
    (token : Option String) (paramsHash : String) (chunks : List (List Nat))
    (now : Nat) (msg : String)
    (h : Server.authorize tbl token paramsHash now = .error msg) :
    Server.upload H db writeOk tbl token paramsHash chunks now =
      ⟨401, false, 0, tbl⟩ := by
  unfold Server.upload
  rw [h]

/-- A failing authorization makes the download respond 401 with the token
table untouched. -/
theorem download_of_authorize_error (readOk streamEnds : Bool)
    (tbl : TokenTable) (token : Option String) (paramsHash : String)
    (now : Nat) (msg : String)
    (h : Server.authorize tbl token paramsHash now = .error msg) :
    Server.download readOk streamEnds tbl token paramsHash now =
      ⟨401, tbl⟩ := by
  unfold Server.download
  rw [h]

/-- A token absent from the table never authorizes. -/
theorem authorize_error_of_no_token (tbl : TokenTable)
    (t paramsHash : String) (now : Nat) (h : lookupToken tbl t = none) :
    ∃ msg, Server.authorize tbl (some t) paramsHash now = .error msg := by
  by_cases h0 : t = ""
  · exact ⟨"You did not supply a token", by simp [Server.authorize, h0]⟩
  · exact ⟨"The token is not accepted", by simp [Server.authorize, h0, h]⟩

/-- After rejecting a token it is gone from the table. -/
theorem lookupToken_reject_self (tbl : TokenTable) (t : String) :
    lookupToken (Server.reject tbl t) t = none := by
  induction tbl with
  | nil => rfl
  | cons p ps ih =>
    by_cases h : p.1 = t
    · simpa [Server.reject, List.filter_cons, h] using ih
    · have hf : (p.1 != t) = true := by
        simpa using h
      have hne : (t == p.1) = false := by
        simpa using Ne.symm h
      simpa [Server.reject, List.filter_cons, hf, lookupToken, List.lookup,
        hne] using ih

/-- Reduction of the upload waterfall once authorization has succeeded. -/
theorem upload_ok_red (H : List Nat → String)
    (db : String → Option ShardContract) (writeOk : Bool) (tbl : TokenTable)
    (t paramsHash : String) (chunks : List (List Nat)) (now : Nat)
    (e : TokenEntry)
    (ha : Server.authorize tbl (some t) paramsHash now = .ok e) :
    Server.upload H db writeOk tbl (some t) paramsHash chunks now =
      (match db e.hash with
       | none => ⟨404, false, 0, tbl⟩
       | some contract =>
         if !writeOk then ⟨500, false, 0, tbl⟩
         else
           match writeChunks contract.shardSize chunks 0 with
           | (true, written) => ⟨400, true, written, tbl⟩
           | (false, written) =>
             if !(decide (H chunks.flatten = e.hash)) then
               ⟨400, true, written, tbl⟩
             else ⟨200, false, written, Server.reject tbl t⟩) := by
  unfold Server.upload
  rw [ha]

/-- Reduction of the download waterfall once authorization has succeeded. -/
theorem download_ok_red (readOk streamEnds : Bool) (tbl : TokenTable)
    (t paramsHash : String) (now : Nat) (e : TokenEntry)
    (ha : Server.authorize tbl (some t) paramsHash now = .ok e) :
    Server.download readOk streamEnds tbl (some t) paramsHash now =
      (if !readOk then ⟨404, tbl⟩
       else if streamEnds then ⟨200, Server.reject tbl t⟩
       else ⟨200, tbl⟩) := by
  unfold Server.download
  rw [ha]

/-- C1: with the companion contract present in the database under the
request hash and the shard write stream opening, an upload is answered 200
iff the token authorizes for the request hash, the digest of the received
bytes equals that hash, and the received byte count never exceeds the
declared shard size of the contract; and in every rejecting case in which
bytes had been written the partial shard was unlinked. -/
theorem upload_accept_iff (H : List Nat → String)
    (db : String → Option ShardContract) (tbl : TokenTable)
    (token : Option String) (paramsHash : String) (chunks : List (List Nat))
    (now : Nat) (c : ShardContract) (hdb : db paramsHash = some c) :
    ((Server.upload H db true tbl token paramsHash chunks now).status = 200 ↔
      (∃ e, Server.authorize tbl token paramsHash now = .ok e)
      ∧ H chunks.flatten = paramsHash
      ∧ chunks.flatten.length ≤ c.shardSize)
    ∧ ((Server.upload H db true tbl token paramsHash chunks now).status ≠
          200 →
        0 < (Server.upload H db true tbl token paramsHash chunks
            now).bytesWritten →
        (Server.upload H db true tbl token paramsHash chunks now).unlinked =
          true) := by
  cases ha : Server.authorize tbl token paramsHash now with
  | error msg =>
    rw [upload_of_authorize_error H db true tbl token paramsHash chunks now
      msg ha]
    refine ⟨iff_of_false (by simp) ?_, ?_⟩
    · rintro ⟨⟨e, he⟩, -, -⟩
      exact Except.noConfusion he
    · intro _ h2
      exact absurd h2 (by simp)
  | ok e =>
    obtain ⟨hehash, hexp, t, htok, hlk⟩ :=
      authorize_ok_facts tbl token paramsHash now e ha
    subst htok
    have hdb2 : db e.hash = some c := by rw [hehash]; exact hdb
    have hred : Server.upload H db true tbl (some t) paramsHash chunks now =
        (match writeChunks c.shardSize chunks 0 with
         | (true, written) => ⟨400, true, written, tbl⟩
         | (false, written) =>
           if !(decide (H chunks.flatten = e.hash)) then
             ⟨400, true, written, tbl⟩
           else ⟨200, false, written, Server.reject tbl t⟩) := by
      rw [upload_ok_red H db true tbl t paramsHash chunks now e ha, hdb2]
      rfl
    rw [hred]
    have hlen := writeChunks_exceeded_iff c.shardSize chunks 0 (Nat.zero_le _)
    rcases hw : writeChunks c.shardSize chunks 0 with ⟨b, w⟩
    rw [hw] at hlen
    cases b with
    | true =>
      have hgt : c.shardSize < (chunks.map List.length).sum := by
        have h3 := hlen.mp rfl
        omega
      refine ⟨iff_of_false (by simp) ?_, ?_⟩
      · rintro ⟨-, -, hle⟩
        rw [List.length_flatten] at hle
        omega
      · intro _ _
        simp
    | false =>
      have hle2 : (chunks.map List.length).sum ≤ c.shardSize := by
        by_contra hcon
        push_neg at hcon
        exact absurd (hlen.mpr (by omega)) (by simp)
      by_cases hH : H chunks.flatten = e.hash
      · refine ⟨iff_of_true (by simp [hH]) ?_, ?_⟩
        · exact ⟨⟨e, rfl⟩, hH.trans hehash, by rw [List.length_flatten]; omega⟩
        · intro hne _
          exact absurd (by simp [hH]) hne
      · refine ⟨iff_of_false (by simp [hH]) ?_, ?_⟩
        · rintro ⟨-, hHp, -⟩
          exact hH (hHp.trans hehash.symm)
        · intro _ _
          simp [hH]

/-- Witness for C1 at a concrete accepted upload: a live token bound to the
hash, a matching digest, and two bytes against a declared size of ten give
status 200. -/
theorem upload_accept_iff_witness :
    (Server.upload constHash sampleDb true sampleTable (some "tok") "ha"
        [[0, 1]] 0).status = 200 :=
  (upload_accept_iff constHash sampleDb sampleTable (some "tok") "ha"
      [[0, 1]] 0 ⟨10⟩ rfl).1.mpr
    ⟨⟨⟨"ha", sampleContact, 100⟩, rfl⟩, rfl, by decide⟩

/-- C9: a token is single use and expiry is enforced at authorization time:
an upload answered 200 leaves the token absent from the table; a completed
download does the same; any request presenting a token absent from the
table is answered 401, for upload and download alike; and a token whose
expiry time has passed never authorizes. -/
theorem token_single_use (H : List Nat → String)
    (db : String → Option ShardContract) (writeOk readOk streamEnds : Bool)
    (tbl : TokenTable) (t paramsHash : String) (chunks : List (List Nat))
    (now : Nat) :
    ((Server.upload H db writeOk tbl (some t) paramsHash chunks now).status =
        200 →
      lookupToken (Server.upload H db writeOk tbl (some t) paramsHash chunks
          now).table t = none)
    ∧ ((∃ e, Server.authorize tbl (some t) paramsHash now = .ok e) →
        readOk = true → streamEnds = true →
        (Server.download readOk streamEnds tbl (some t) paramsHash
            now).status = 200
        ∧ lookupToken (Server.download readOk streamEnds tbl (some t)
            paramsHash now).table t = none)
    ∧ (∀ tbl2 : TokenTable, lookupToken tbl2 t = none →
        (Server.upload H db writeOk tbl2 (some t) paramsHash chunks
            now).status = 401
        ∧ (Server.download readOk streamEnds tbl2 (some t) paramsHash
            now).status = 401)
    ∧ (∀ e, lookupToken tbl t = some e → e.expires < now →
        ∀ e2 h2, Server.authorize tbl (some t) h2 now ≠ .ok e2) := by
  refine ⟨?_, ?_, ?_, ?_⟩
  · cases ha : Server.authorize tbl (some t) paramsHash now with
    | error msg =>
      rw [upload_of_authorize_error H db writeOk tbl (some t) paramsHash
        chunks now msg ha]
      intro h
      simp at h
    | ok e =>
      rw [upload_ok_red H db writeOk tbl t paramsHash chunks now e ha]
      cases hdb : db e.hash with
      | none =>
        simp only [hdb]
        intro h
        simp at h
      | some c =>
        simp only [hdb]
        cases writeOk with
        | false =>
          intro h
          simp at h
        | true =>
          rcases hw : writeChunks c.shardSize chunks 0 with ⟨b, w⟩
          cases b with
          | true =>
            intro h
            simp [hw] at h
          | false =>
            by_cases hH : H chunks.flatten = e.hash
            · intro _
              simp [hw, hH, lookupToken_reject_self]
            · intro h
              simp [hw, hH] at h
  · rintro ⟨e, ha⟩ hr hs
    subst hr
    subst hs
    rw [download_ok_red true true tbl t paramsHash now e ha]
    exact ⟨by simp, by simp [lookupToken_reject_self]⟩
  · intro tbl2 hl
    obtain ⟨msg, hmsg⟩ := authorize_error_of_no_token tbl2 t paramsHash now hl
    refine ⟨?_, ?_⟩
    · rw [upload_of_authorize_error H db writeOk tbl2 (some t) paramsHash
        chunks now msg hmsg]
    · rw [download_of_authorize_error readOk streamEnds tbl2 (some t)
        paramsHash now msg hmsg]
  · intro e hl hexp e2 h2 hcon
    obtain ⟨-, hlt, t2, ht2, hl2⟩ :=
      authorize_ok_facts tbl (some t) h2 now e2 hcon
    obtain rfl : t = t2 := Option.some.inj ht2
    rw [hl] at hl2
    obtain rfl : e = e2 := Option.some.inj hl2
    omega

/-- Witness for C9: the concrete accepted upload of the C1 configuration
leaves its token absent from the table. -/
theorem token_single_use_witness :
    lookupToken (Server.upload constHash sampleDb true sampleTable
        (some "tok") "ha" [[0, 1]] 0).table "tok" = none :=
  (token_single_use constHash sampleDb true true true sampleTable "tok" "ha"
      [[0, 1]] 0).1 (by decide)

end Orc
